import Mathlib

/-!
Shallow embedding of the core of `src/lib/parser.ts` from the eml-analyser
repository: the data model, the tolerant regular-expression extraction
heuristics, authentication-verdict parsing and deduplication, the received
routing chain with inter-hop delay computation, warning synthesis, and the
full analysis pipeline.

Modelling conventions:
- TypeScript strings are Lean `String`s (treated as sequences of `Char`).
- JavaScript regular-expression matches are modelled by explicit leftmost
  scanning functions (`scanFirst` tries every start position in order, as the
  JS engine does); each regex of the source is translated to one capture
  function whose name records which source pattern it embeds.
- JavaScript `Date` parsing is implementation-defined, so the environment's
  date parser is an explicit parameter `jsDate : String → Option Int`
  (`none` models an invalid date, `some ms` a valid epoch-milliseconds value).
- Union-typed inputs from the external MIME decoder are explicit inductive
  types; JS truthiness of strings (`"" ` is falsy) is modelled by explicit
  emptiness tests at exactly the places the source relies on it.
- Machine numbers (`Date.getTime()` differences, `performance.now()`) are
  modelled as `Int`.
-/

/-! ## Data model (src/types/email.ts) -/

structure EmailAddress where
  name : Option String
  address : String
deriving DecidableEq

structure EmailHeader where
  key : String
  value : String
deriving DecidableEq

structure EmailAttachment where
  filename : String
  mimeType : String
  size : Nat
  content : List UInt8
  contentId : Option String
  disposition : String
deriving DecidableEq

structure AuthenticationResult where
  method : String
  result : String
  details : String
  domain : Option String
  selector : Option String
  rawHeader : Option String
deriving DecidableEq

structure ReceivedHop where
  from_ : Option String
  by_ : Option String
  with_ : Option String
  timestamp : Option Int
  delay : Option Int := none
  rawHeader : String
deriving DecidableEq

structure AnalysisWarning where
  severity : String
  title : String
  description : String
  relatedHeader : Option String
deriving DecidableEq

/-! ## Character classes and scanning primitives (model of the JS regex engine) -/

/-- Character class of the JS regex token `\s` (whitespace). -/
def isJsSpace (c : Char) : Bool :=
  c = ' ' || c = '\t' || c = '\n' || c = '\r' || c.val = 11 || c.val = 12 ||
  c.val = 0xA0 || c.val = 0x1680 || (0x2000 ≤ c.val && c.val ≤ 0x200A) ||
  c.val = 0x2028 || c.val = 0x2029 || c.val = 0x202F || c.val = 0x205F ||
  c.val = 0x3000 || c.val = 0xFEFF

/-- Character class of the JS regex token `\w`: `[A-Za-z0-9_]`. -/
def isWordChar (c : Char) : Bool :=
  c.isAlpha || c.isDigit || c = '_'

/-- JS line terminators, which `.` does not match. -/
def isLineTerm (c : Char) : Bool :=
  c = '\n' || c = '\r' || c.val = 0x2028 || c.val = 0x2029

/-- Model of JS `toLowerCase` (ASCII case folding), character-structural so it
evaluates by kernel reduction. -/
def jsToLower (s : String) : String := String.mk (s.data.map Char.toLower)

/-- Model of JS `toUpperCase` (ASCII case folding). -/
def jsToUpper (s : String) : String := String.mk (s.data.map Char.toUpper)

/-- Auxiliary accumulator recursion for `jsSplitChar`. -/
def splitOnCharAux (sep : Char) : List Char → List Char → List String
  | [], acc => [String.mk acc.reverse]
  | c :: rest, acc =>
    if c = sep then String.mk acc.reverse :: splitOnCharAux sep rest []
    else splitOnCharAux sep rest (c :: acc)

/-- Model of JS `String.prototype.split` with a one-character separator. -/
def jsSplitChar (sep : Char) (s : String) : List String := splitOnCharAux sep s.data []

/-- Try an anchored matcher at every start position, left to right, returning
the first success: the leftmost-match rule of the JS regex engine. -/
def scanFirst (f : List Char → Option α) : List Char → Option α
  | [] => f []
  | c :: rest =>
    match f (c :: rest) with
    | some r => some r
    | none => scanFirst f rest

/-- Match a literal case-insensitively (the `i` flag) at the head of the
input, returning the remainder on success. -/
def matchLitCI : List Char → List Char → Option (List Char)
  | [], rest => some rest
  | _ :: _, [] => none
  | a :: as, b :: bs => if a.toLower = b.toLower then matchLitCI as bs else none

/-- Greedy run of a character class: `(l.takeWhile p, l.dropWhile p)`. -/
def takeRun (p : Char → Bool) (l : List Char) : List Char × List Char :=
  (l.takeWhile p, l.dropWhile p)

/-- The character class `[^\s;]`. -/
def notSpaceSemi (c : Char) : Bool := !(isJsSpace c) && !(c = ';')

/-- The character class `[^\s(]`. -/
def notSpaceParen (c : Char) : Bool := !(isJsSpace c) && !(c = '(')

/-- Model of `/lit([cls]+)/i`: leftmost occurrence of the literal followed by a
nonempty greedy run of the class; the run is the capture. -/
def capAfterLit (lit : String) (cls : Char → Bool) (s : String) : Option String :=
  scanFirst (fun l =>
    match matchLitCI lit.data l with
    | none => none
    | some rest =>
      let (run, _) := takeRun cls rest
      if run.isEmpty then none else some (String.mk run)) s.data

/-- Model of `/lit\s+([cls]+)/i`: literal, at least one whitespace, then a
nonempty greedy run of the class (which excludes whitespace). -/
def capAfterLitWs (lit : String) (cls : Char → Bool) (s : String) : Option String :=
  scanFirst (fun l =>
    match matchLitCI lit.data l with
    | none => none
    | some rest =>
      let (ws, rest2) := takeRun isJsSpace rest
      if ws.isEmpty then none
      else
        let (run, _) := takeRun cls rest2
        if run.isEmpty then none else some (String.mk run)) s.data

/-! ## Header lookups (findHeader / findAllHeaders) -/

def findHeader (headers : List EmailHeader) (key : String) : Option String :=
  (headers.find? (fun h => jsToLower h.key = jsToLower key)).map (·.value)

def findAllHeaders (headers : List EmailHeader) (key : String) : List String :=
  (headers.filter (fun h => jsToLower h.key = jsToLower key)).map (·.value)

/-! ## extractEmailFromHeader -/

/-- Model of `/<([^>]+)>/`. -/
def angleCapture (s : String) : Option String :=
  scanFirst (fun l =>
    match l with
    | '<' :: rest =>
      let (inner, rest2) := takeRun (fun c => !(c = '>')) rest
      (match rest2 with
       | '>' :: _ => if inner.isEmpty then none else some (String.mk inner)
       | _ => none)
    | _ => none) s.data

/-- The character class `[^\s<>]`. -/
def isAddrChar (c : Char) : Bool := !(isJsSpace c) && !(c = '<') && !(c = '>')

/-- Model of `/([^\s<>]+@[^\s<>]+)/`: the capture is the first maximal run of
address characters that contains an `@` at an interior position. -/
def atCapture (s : String) : Option String :=
  scanFirst (fun l =>
    let (run, _) := takeRun isAddrChar l
    if ((run.drop 1).dropLast).contains '@' then some (String.mk run) else none) s.data

def extractEmailFromHeader (value : String) : String :=
  match angleCapture value with
  | some c => c
  | none =>
    match atCapture value with
    | some c => c
    | none => value

/-! ## Authentication parsing -/

def validResults : List String :=
  ["pass", "fail", "softfail", "neutral", "none", "temperror", "permerror"]

def normalizeResult (result : String) : String :=
  let normalized := jsToLower result
  if validResults.contains normalized then normalized else "unknown"

/-- Model of `/header\.[di]=@?([^\s;@]+)/i`, the dkim fallback domain pattern
of extractDomainFromDetails. -/
def headerDomainFallback (s : String) : Option String :=
  scanFirst (fun l =>
    match matchLitCI "header.".data l with
    | none => none
    | some r1 =>
      match r1 with
      | c :: r2 =>
        if c.toLower = 'd' || c.toLower = 'i' then
          match r2 with
          | '=' :: r3 =>
            let r4 := match r3 with
                      | '@' :: rr => rr
                      | _ => r3
            let (run, _) := takeRun (fun c => !(isJsSpace c) && !(c = ';') && !(c = '@')) r4
            if run.isEmpty then none else some (String.mk run)
          | _ => none
        else none
      | [] => none) s.data

def extractDomainFromDetails (header : String) (method : String) : Option String :=
  if method = "dkim" then headerDomainFallback header else none

/-- Anchored matcher for `lit(\w+)(?:\s+\(([^)]+)\))?`: the result token, the
optional parenthesised comment, and the rest of the input after the optional
part (where the dkim pattern continues). -/
def matchTokenComment (lit : String) (l : List Char) : Option (String × Option String × List Char) :=
  match matchLitCI lit.data l with
  | none => none
  | some rest =>
    let (tok, rest1) := takeRun isWordChar rest
    if tok.isEmpty then none
    else
      let (ws, rest2) := takeRun isJsSpace rest1
      match (if ws.isEmpty then none
             else match rest2 with
                  | '(' :: inner0 =>
                    let (inner, rest3) := takeRun (fun c => !(c = ')')) inner0
                    (match rest3 with
                     | ')' :: rest4 =>
                       if inner.isEmpty then none else some (String.mk inner, rest4)
                     | _ => none)
                  | _ => none) with
      | some (comment, restAfter) => some (String.mk tok, some comment, restAfter)
      | none => some (String.mk tok, none, rest1)

/-- Anchored matcher for the optional dkim tail `(?:\s+header\.[di]=([^\s;]+))?`. -/
def matchHeaderDomain (l : List Char) : Option String :=
  let (ws, r1) := takeRun isJsSpace l
  if ws.isEmpty then none
  else
    match matchLitCI "header.".data r1 with
    | none => none
    | some r2 =>
      match r2 with
      | c :: r3 =>
        if c.toLower = 'd' || c.toLower = 'i' then
          match r3 with
          | '=' :: r4 =>
            let (run, _) := takeRun notSpaceSemi r4
            if run.isEmpty then none else some (String.mk run)
          | _ => none
        else none
      | [] => none

/-- Model of `/lit=(\w+)(?:\s+\(([^)]+)\))?/i` over the whole header. -/
def arPattern (lit : String) (s : String) : Option (String × Option String) :=
  scanFirst (fun l => (matchTokenComment lit l).map (fun r => (r.1, r.2.1))) s.data

/-- Model of `/dkim=(\w+)(?:\s+\(([^)]+)\))?(?:\s+header\.[di]=([^\s;]+))?/i`. -/
def arPatternDkim (s : String) : Option (String × Option String × Option String) :=
  scanFirst (fun l =>
    (matchTokenComment "dkim=" l).map (fun r => (r.1, r.2.1, matchHeaderDomain r.2.2))) s.data

/-- One entry pushed by parseAuthenticationResultsHeader for a matched method
pattern: `details = match[2] || method.toUpperCase()+"="+match[1]` and
`domain = match[3] || extractDomainFromDetails(header, method)`. -/
def mkArEntry (method : String) (tok : String) (comment : Option String)
    (g3 : Option String) (header : String) : AuthenticationResult :=
  { method := method
    result := normalizeResult tok
    details := comment.getD (jsToUpper method ++ "=" ++ tok)
    domain := (g3.orElse (fun _ => extractDomainFromDetails header method))
    selector := none
    rawHeader := some header }

def parseAuthenticationResultsHeader (header : String) : List AuthenticationResult :=
  (match arPattern "spf=" header with
   | some (tok, comment) => [mkArEntry "spf" tok comment none header]
   | none => []) ++
  (match arPatternDkim header with
   | some (tok, comment, g3) => [mkArEntry "dkim" tok comment g3 header]
   | none => []) ++
  (match arPattern "dmarc=" header with
   | some (tok, comment) => [mkArEntry "dmarc" tok comment none header]
   | none => []) ++
  (match arPattern "arc=" header with
   | some (tok, comment) => [mkArEntry "arc" tok comment none header]
   | none => [])

/-- Model of `/^(\w+)/i`: the anchored leading word-character run. -/
def leadingWordRun (s : String) : Option String :=
  let (run, _) := takeRun isWordChar s.data
  if run.isEmpty then none else some (String.mk run)

/-- Capture of `/envelope-from=([^\s;]+)/i`. -/
def envCapture (s : String) : Option String := capAfterLit "envelope-from=" notSpaceSemi s

/-- Capture of `/identity=([^\s;]+)/i`. -/
def identityCapture (s : String) : Option String := capAfterLit "identity=" notSpaceSemi s

/-- Capture of `/sender ([^\s;]+)/i`. -/
def senderCapture (s : String) : Option String := capAfterLit "sender " notSpaceSemi s

def parseSpfHeader (header : String) : Option AuthenticationResult :=
  (leadingWordRun header).map (fun tok =>
    { method := "spf"
      result := normalizeResult tok
      details := header
      domain := (envCapture header).orElse (fun _ =>
        (identityCapture header).orElse (fun _ => senderCapture header))
      selector := none
      rawHeader := some header })

/-- Capture of `/d=([^\s;]+)/i`. -/
def dEqCapture (s : String) : Option String := capAfterLit "d=" notSpaceSemi s

/-- Capture of `/s=([^\s;]+)/i`. -/
def sEqCapture (s : String) : Option String := capAfterLit "s=" notSpaceSemi s

/-- Capture of `/cv=(\w+)/i`. -/
def cvCapture (s : String) : Option String := capAfterLit "cv=" isWordChar s

def parseDkimSignatureHeader (header : String) : Option AuthenticationResult :=
  some
    { method := "dkim"
      result := "unknown"
      details := "Signed by " ++ ((dEqCapture header).getD "unknown") ++
        " (selector: " ++ ((sEqCapture header).getD "unknown") ++ ")"
      domain := dEqCapture header
      selector := sEqCapture header
      rawHeader := some header }

def parseArcHeader (header : String) : Option AuthenticationResult :=
  some
    { method := "arc"
      result := match cvCapture header with
                | some t => normalizeResult t
                | none => "unknown"
      details := header
      domain := dEqCapture header
      selector := none
      rawHeader := some header }

/-! ## Deduplication (deduplicateAuthResults) -/

/-- The deduplication key: `result.method + "-" + (result.domain || "unknown")`. -/
def dedupKey (r : AuthenticationResult) : String :=
  r.method ++ "-" ++ (r.domain.getD "unknown")

/-- `Map.get`, on an insertion-ordered association list. -/
def mapLookup : List (String × AuthenticationResult) → String → Option AuthenticationResult
  | [], _ => none
  | p :: m, k => if p.1 = k then some p.2 else mapLookup m k

/-- `Map.set`: replace in place when the key exists, append otherwise. -/
def mapSet : List (String × AuthenticationResult) → String → AuthenticationResult →
    List (String × AuthenticationResult)
  | [], k, v => [(k, v)]
  | p :: m, k, v => if p.1 = k then (k, v) :: m else p :: mapSet m k v

/-- One iteration of the deduplication loop: set when there is no existing
entry, or when the existing entry is `unknown` and the incoming one is not. -/
def dedupStep (m : List (String × AuthenticationResult)) (r : AuthenticationResult) :
    List (String × AuthenticationResult) :=
  match mapLookup m (dedupKey r) with
  | none => mapSet m (dedupKey r) r
  | some existing =>
    if existing.result = "unknown" ∧ r.result ≠ "unknown" then
      mapSet m (dedupKey r) r
    else m

def deduplicateAuthResults (results : List AuthenticationResult) : List AuthenticationResult :=
  (results.foldl dedupStep []).map (·.2)

/-! ## parseAuthenticationHeaders -/

def collectAuthResults (headers : List EmailHeader) : List AuthenticationResult :=
  ((findAllHeaders headers "authentication-results").map parseAuthenticationResultsHeader).flatten ++
  (findAllHeaders headers "received-spf").filterMap parseSpfHeader ++
  (findAllHeaders headers "dkim-signature").filterMap parseDkimSignatureHeader ++
  (findAllHeaders headers "arc-seal").filterMap parseArcHeader

def parseAuthenticationHeaders (headers : List EmailHeader) : List AuthenticationResult :=
  deduplicateAuthResults (collectAuthResults headers)

/-! ## Received chain -/

/-- Capture of `/from\s+([^\s(]+)/i`. -/
def fromCapture (s : String) : Option String := capAfterLitWs "from" notSpaceParen s

/-- Capture of `/by\s+([^\s(]+)/i`. -/
def byCapture (s : String) : Option String := capAfterLitWs "by" notSpaceParen s

/-- Capture of `/with\s+(\w+)/i`. -/
def withCapture (s : String) : Option String := capAfterLitWs "with" isWordChar s

/-- JS `String.prototype.trim` on a character list. -/
def jsTrim (l : List Char) : List Char :=
  ((l.dropWhile isJsSpace).reverse.dropWhile isJsSpace).reverse

/-- Model of `match(/;\s*(.+)$/)` followed by `.trim()`: the text after the
first semicolon from which the pattern can complete (`.` matches no line
terminator and `$` is the end of the input), trimmed. -/
def timestampRaw (s : String) : Option String :=
  scanFirst (fun l =>
    match l with
    | ';' :: after =>
      if after.isEmpty then none
      else
        let stripped := after.dropWhile isJsSpace
        if stripped.isEmpty then
          (match after.getLast? with
           | some c => if isLineTerm c then none else some ""
           | none => none)
        else if stripped.any isLineTerm then none
        else some (String.mk (jsTrim stripped))
    | _ => none) s.data

def parseReceivedHeader (jsDate : String → Option Int) (header : String) : ReceivedHop :=
  { from_ := fromCapture header
    by_ := byCapture header
    with_ := withCapture header
    timestamp := (timestampRaw header).bind jsDate
    delay := none
    rawHeader := header }

/-- The delay loop of parseReceivedChain: hop i receives
`timestamp[i] - timestamp[i+1]` when both timestamps exist; the last hop is
never assigned a delay. -/
def computeDelays : List ReceivedHop → List ReceivedHop
  | [] => []
  | [h] => [h]
  | h :: h2 :: t =>
    (match h.timestamp, h2.timestamp with
     | some cur, some prev => { h with delay := some (cur - prev) }
     | _, _ => h) :: computeDelays (h2 :: t)

def parseReceivedChain (jsDate : String → Option Int) (headers : List EmailHeader) :
    List ReceivedHop :=
  computeDelays ((findAllHeaders headers "received").map (parseReceivedHeader jsDate))

/-! ## Warning synthesis (generateWarnings) -/

/-- The failed/softfail/temperror warnings pushed by the loop over the
authentication results, in order. -/
def authResultWarnings (authentication : List AuthenticationResult) : List AnalysisWarning :=
  authentication.foldr (fun auth acc =>
    (if auth.result = "fail" ∨ auth.result = "permerror" then
      [{ severity := "error"
         title := jsToUpper auth.method ++ " Authentication Failed"
         description := if auth.details ≠ "" then auth.details
           else "The " ++ jsToUpper auth.method ++ " check failed for this email."
         relatedHeader := auth.rawHeader }]
     else if auth.result = "softfail" then
      [{ severity := "warning"
         title := jsToUpper auth.method ++ " Soft Fail"
         description := if auth.details ≠ "" then auth.details
           else "The " ++ jsToUpper auth.method ++ " check resulted in a soft fail."
         relatedHeader := auth.rawHeader }]
     else if auth.result = "temperror" then
      [{ severity := "warning"
         title := jsToUpper auth.method ++ " Temporary Error"
         description := "There was a temporary error checking " ++ jsToUpper auth.method ++ "."
         relatedHeader := auth.rawHeader }]
     else []) ++ acc) []

def noSpfWarning : AnalysisWarning :=
  { severity := "info"
    title := "No SPF Record Found"
    description := "This email has no SPF authentication results. The sending domain may not have SPF configured."
    relatedHeader := none }

def noDkimWarning : AnalysisWarning :=
  { severity := "info"
    title := "No DKIM Signature Found"
    description := "This email has no DKIM signature or authentication results."
    relatedHeader := none }

def noDmarcWarning : AnalysisWarning :=
  { severity := "info"
    title := "No DMARC Record Found"
    description := "This email has no DMARC authentication results."
    relatedHeader := none }

/-- The three missing-method checks over the set of methods present. -/
def missingAuthWarnings (authentication : List AuthenticationResult) : List AnalysisWarning :=
  (if authentication.any (fun a => a.method = "spf") then [] else [noSpfWarning]) ++
  (if authentication.any (fun a => a.method = "dkim") then [] else [noDkimWarning]) ++
  (if authentication.any (fun a => a.method = "dmarc") then [] else [noDmarcWarning])

/-- The Return-Path / From domain comparison; guards mirror the JS truthiness
tests (`from && from[0] && returnPath`, then truthiness of each lower-cased
domain segment). -/
def returnPathMismatchWarnings (fromAddrs : Option (List EmailAddress))
    (returnPath : Option String) : List AnalysisWarning :=
  match fromAddrs, returnPath with
  | some (f0 :: _), some rp =>
    if rp = "" then []
    else
      match ((jsSplitChar '@' f0.address).get? 1).map jsToLower,
            ((jsSplitChar '@' rp).get? 1).map jsToLower with
      | some fromDomain, some returnPathDomain =>
        if fromDomain ≠ "" ∧ returnPathDomain ≠ "" ∧ fromDomain ≠ returnPathDomain then
          [{ severity := "warning"
             title := "Return-Path Domain Mismatch"
             description := "The Return-Path domain (" ++ returnPathDomain ++
               ") differs from the From domain (" ++ fromDomain ++
               "). This is common for mailing lists but could indicate spoofing."
             relatedHeader := none }]
        else []
      | _, _ => []
  | _, _ => []

/-- Case-insensitive substring test, the `test` of a literal alternative. -/
def containsLitCI (lit : String) (s : String) : Bool :=
  (scanFirst (fun l => matchLitCI lit.data l) s.data).isSome

/-- Model of `/php|script/i.test(xMailer)`. -/
def looksScripted (s : String) : Bool :=
  containsLitCI "php" s || containsLitCI "script" s

/-- The suspicious X-Mailer check. -/
def xMailerWarnings (headers : List EmailHeader) : List AnalysisWarning :=
  match findHeader headers "x-mailer" with
  | some xMailer =>
    if xMailer ≠ "" ∧ looksScripted xMailer then
      [{ severity := "info"
         title := "Automated Sending Detected"
         description := "This email appears to have been sent by an automated script (X-Mailer: " ++
           xMailer ++ ")."
         relatedHeader := some xMailer }]
    else []
  | none => []

def generateWarnings (authentication : List AuthenticationResult)
    (fromAddrs : Option (List EmailAddress)) (returnPath : Option String)
    (headers : List EmailHeader) : List AnalysisWarning :=
  authResultWarnings authentication ++
  missingAuthWarnings authentication ++
  returnPathMismatchWarnings fromAddrs returnPath ++
  xMailerWarnings headers

/-! ## The full pipeline (parseEmlFile)

The external MIME decoder (postal-mime) is out of scope; its output is the
explicit input type `PostalMessage` below, with the union-typed address
fields of the decoder contract made explicit. -/

/-- A decoder address value: plain string or `name`/`address` object. -/
inductive AddrVal where
  | str (s : String)
  | obj (name : Option String) (address : Option String)
deriving DecidableEq

/-- A decoder address field: absent, a string, an object, or an array. -/
inductive AddrsVal where
  | absent
  | str (s : String)
  | obj (name : Option String) (address : Option String)
  | arr (l : List AddrVal)
deriving DecidableEq

/-- A decoder attachment content: ArrayBuffer bytes, a string, or neither. -/
inductive AttContent where
  | buffer (bytes : List UInt8)
  | str (s : String)
  | other
deriving DecidableEq

structure AttachmentInput where
  filename : Option String
  mimeType : Option String
  content : AttContent
  contentId : Option String
  disposition : Option String
deriving DecidableEq

structure PostalMessage where
  headers : List EmailHeader
  from_ : AddrsVal
  to_ : AddrsVal
  cc : AddrsVal
  bcc : AddrsVal
  replyTo : AddrsVal
  sender : Option AddrVal
  messageId : Option String
  subject : Option String
  date : Option String
  html : Option String
  text : Option String
  inReplyTo : Option String
  references : Option String
  attachments : List AttachmentInput
deriving DecidableEq

def parseAddress : AddrVal → Option EmailAddress
  | .str s => some { name := none, address := s }
  | .obj name address =>
    match address with
    | some a => if a = "" then none else some { name := name, address := a }
    | none => none

def parseAddresses : AddrsVal → Option (List EmailAddress)
  | .absent => none
  | .str s => if s = "" then none else some [{ name := none, address := s }]
  | .arr l => some (l.filterMap parseAddress)
  | .obj name address =>
    match parseAddress (.obj name address) with
    | some a => some [a]
    | none => none

/-- One attachment mapped into the output shape; `TextEncoder.encode` is the
UTF-8 encoding of the string. -/
def parseAttachment (att : AttachmentInput) : EmailAttachment :=
  let contentBytes : List UInt8 :=
    match att.content with
    | .buffer bs => bs
    | .str s => s.toUTF8.toList
    | .other => []
  { filename := match att.filename with
                | some f => if f = "" then "unnamed" else f
                | none => "unnamed"
    mimeType := match att.mimeType with
                | some m => if m = "" then "application/octet-stream" else m
                | none => "application/octet-stream"
    size := contentBytes.length
    content := contentBytes
    contentId := att.contentId
    disposition := if att.disposition = some "inline" then "inline" else "attachment" }

structure ParsedEmail where
  messageId : Option String
  subject : Option String
  date : Option (Option Int)
  from_ : Option (List EmailAddress)
  to_ : Option (List EmailAddress)
  cc : Option (List EmailAddress)
  bcc : Option (List EmailAddress)
  replyTo : Option (List EmailAddress)
  returnPath : Option String
  sender : Option EmailAddress
  html : Option String
  text : Option String
  headers : List EmailHeader
  attachments : List EmailAttachment
  authentication : List AuthenticationResult
  receivedChain : List ReceivedHop
  rawContent : String
  inReplyTo : Option String
  references : Option (List String)
deriving DecidableEq

structure EmailAnalysis where
  email : ParsedEmail
  warnings : List AnalysisWarning
  parseTime : Int
deriving DecidableEq

/-- The orchestrator. `jsDate` is the environment's date parser; `msg` is the
external decoder's output for the input `content` (read as text for the raw
view); `startTime`/`endTime` are the two `performance.now()` readings. -/
def parseEmlFile (jsDate : String → Option Int) (msg : PostalMessage)
    (content : String) (startTime endTime : Int) : EmailAnalysis :=
  let headers := msg.headers
  let fromAddrs := parseAddresses msg.from_
  let returnPath : Option String :=
    match findHeader headers "return-path" with
    | some v => if v = "" then none else some (extractEmailFromHeader v)
    | none => none
  let authentication := parseAuthenticationHeaders headers
  let receivedChain := parseReceivedChain jsDate headers
  let warnings := generateWarnings authentication fromAddrs returnPath headers
  { email :=
      { messageId := msg.messageId
        subject := msg.subject
        date := match msg.date with
                | some d => if d = "" then none else some (jsDate d)
                | none => none
        from_ := fromAddrs
        to_ := parseAddresses msg.to_
        cc := parseAddresses msg.cc
        bcc := parseAddresses msg.bcc
        replyTo := parseAddresses msg.replyTo
        returnPath := returnPath
        sender := match msg.sender with
                  | some v => if v = .str "" then none else parseAddress v
                  | none => none
        html := msg.html
        text := msg.text
        headers := headers
        attachments := msg.attachments.map parseAttachment
        authentication := authentication
        receivedChain := receivedChain
        rawContent := content
        inReplyTo := msg.inReplyTo
        references := match msg.references with
                      | some r =>
                        if r = "" then none
                        else some ((r.split isJsSpace).filter (fun t => t ≠ ""))
                      | none => none }
    warnings := warnings
    parseTime := endTime - startTime }

/-! ## Claim theorems -/

/-- C8: running the pipeline twice on byte-identical input produces
`ParsedEmail` values and warning lists that are structurally equal, differing
at most in `parseTimeMs`: every field of the result other than `parseTime` is
independent of the two clock readings, and `parseTime` is exactly their
difference. The external decoder and the date parser enter only as explicit
function arguments, so the whole pipeline is a pure function of its inputs. -/
theorem C8_pipeline_deterministic :
    ∀ (jsDate : String → Option Int) (msg : PostalMessage) (content : String)
      (t0 t1 t0' t1' : Int),
      (parseEmlFile jsDate msg content t0 t1).email =
        (parseEmlFile jsDate msg content t0' t1').email ∧
      (parseEmlFile jsDate msg content t0 t1).warnings =
        (parseEmlFile jsDate msg content t0' t1').warnings ∧
      (parseEmlFile jsDate msg content t0 t1).parseTime = t1 - t0 := by
  intro jsDate msg content t0 t1 t0' t1'
  exact ⟨rfl, rfl, rfl⟩

/-- C2 (counterexample): on the header value
`pass (envelope-from=bob@example.org; ...)` the extracted domain is the full
`envelope-from` value `bob@example.org`, not `example.org` as the claim
states. -/
theorem C2_counterexample :
    Option.bind (parseSpfHeader "pass (envelope-from=bob@example.org; ...)")
        (fun r => r.domain) = some "bob@example.org" ∧
      Option.bind (parseSpfHeader "pass (envelope-from=bob@example.org; ...)")
        (fun r => r.domain) ≠ some "example.org" := by
  constructor
  · decide
  · decide

/-- C2 (amended): for `Received-SPF: pass (envelope-from=bob@example.org; ...)`
the extracted entry has `method=spf`, `result=pass` and
`domain=bob@example.org` (the raw captured value, address included); in
general the domain is the capture of `envelope-from=`, `identity=`, or a
`sender <value>` fragment, first match winning in that priority order
(regardless of where the fragments occur in the header). -/
theorem C2_spf_extraction :
    parseSpfHeader "pass (envelope-from=bob@example.org; ...)" = some
      { method := "spf", result := "pass"
        details := "pass (envelope-from=bob@example.org; ...)"
        domain := some "bob@example.org", selector := none
        rawHeader := some "pass (envelope-from=bob@example.org; ...)" } ∧
    (∀ h, parseSpfHeader h = (leadingWordRun h).map (fun tok =>
      { method := "spf"
        result := normalizeResult tok
        details := h
        domain := (envCapture h).orElse (fun _ =>
          (identityCapture h).orElse (fun _ => senderCapture h))
        selector := none
        rawHeader := some h })) ∧
    Option.bind (parseSpfHeader "pass identity=i.example envelope-from=bob@e.example")
      (fun r => r.domain) = some "bob@e.example" ∧
    Option.bind (parseSpfHeader "pass sender s.example identity=i.example")
      (fun r => r.domain) = some "i.example" := by
  refine ⟨by decide, fun h => rfl, by decide, by decide⟩

/-- Length of the delay loop output: one hop per input hop. -/
theorem computeDelays_length (hops : List ReceivedHop) :
    (computeDelays hops).length = hops.length := by
  induction hops with
  | nil => rfl
  | cons h t ih =>
    cases t with
    | nil => rfl
    | cons h2 t2 => simpa [computeDelays] using ih

/-- C4 (counterexample): a `Received-SPF` header instance whose value does not
begin with a word character yields no `AuthenticationResult` at all — the
record is dropped, contradicting the claim that every instance yields one. -/
theorem C4_counterexample :
    findAllHeaders [{ key := "Received-SPF", value := "(mfrom) pass" }] "received-spf" =
        ["(mfrom) pass"] ∧
      parseSpfHeader "(mfrom) pass" = none ∧
      collectAuthResults [{ key := "Received-SPF", value := "(mfrom) pass" }] = [] := by
  refine ⟨by decide, by decide, by decide⟩

/-- C4 (amended): every `DKIM-Signature` and `ARC-Seal` header instance yields
a record carrying whatever fields did parse, every `Received` header yields
exactly one hop, and a `Received-SPF` instance yields a record exactly when
its value begins with a word character (otherwise it is dropped); no parsing
step can fail in any other way, all parsers being total functions. -/
theorem C4_partial_records :
    (∀ h, parseDkimSignatureHeader h = some
      { method := "dkim", result := "unknown"
        details := "Signed by " ++ ((dEqCapture h).getD "unknown") ++
          " (selector: " ++ ((sEqCapture h).getD "unknown") ++ ")"
        domain := dEqCapture h, selector := sEqCapture h
        rawHeader := some h }) ∧
    (∀ h, ∃ r, parseArcHeader h = some r ∧ r.rawHeader = some h ∧
      r.domain = dEqCapture h) ∧
    (∀ (jsDate : String → Option Int) headers,
      (parseReceivedChain jsDate headers).length =
        (findAllHeaders headers "received").length) ∧
    (∀ (jsDate : String → Option Int) h, (parseReceivedHeader jsDate h).rawHeader = h) ∧
    (∀ h, (parseSpfHeader h).isSome = (match h.data with
      | [] => false
      | c :: _ => isWordChar c)) := by
  refine ⟨fun h => rfl, fun h => ⟨_, rfl, rfl, rfl⟩, ?_, fun jsDate h => rfl, ?_⟩
  · intro jsDate headers
    simpa [parseReceivedChain] using
      computeDelays_length ((findAllHeaders headers "received").map (parseReceivedHeader jsDate))
  · intro h
    obtain ⟨l⟩ := h
    cases l with
    | nil => rfl
    | cons c t =>
      simp only [parseSpfHeader, leadingWordRun, takeRun, Option.isSome_map]
      cases hc : isWordChar c <;> simp [List.takeWhile_cons, hc]

/-- C7: every `Received` header value produces exactly one hop (the chain has
one hop per `Received` instance), `rawHeader` always equals the original
header text, and a value from which no `from`/`by`/`with`/timestamp field can
be extracted still yields a hop with every optional field absent. -/
theorem C7_hop_never_dropped :
    (∀ (jsDate : String → Option Int) headers,
      (parseReceivedChain jsDate headers).length =
        (findAllHeaders headers "received").length) ∧
    (∀ (jsDate : String → Option Int) h, (parseReceivedHeader jsDate h).rawHeader = h) ∧
    (∀ (jsDate : String → Option Int) h,
      fromCapture h = none → byCapture h = none → withCapture h = none →
      timestampRaw h = none →
      parseReceivedHeader jsDate h =
        { from_ := none, by_ := none, with_ := none, timestamp := none
          delay := none, rawHeader := h }) := by
  refine ⟨?_, fun jsDate h => rfl, ?_⟩
  · intro jsDate headers
    simpa [parseReceivedChain] using
      computeDelays_length ((findAllHeaders headers "received").map (parseReceivedHeader jsDate))
  · intro jsDate h h1 h2 h3 h4
    simp [parseReceivedHeader, h1, h2, h3, h4]

/-- C7 witness: a fully malformed header still yields the all-absent hop. -/
theorem C7_witness :
    fromCapture "garbage" = none ∧ byCapture "garbage" = none ∧
    withCapture "garbage" = none ∧ timestampRaw "garbage" = none ∧
    parseReceivedHeader (fun _ => none) "garbage" =
      { from_ := none, by_ := none, with_ := none, timestamp := none
        delay := none, rawHeader := "garbage" } :=
  ⟨by decide, by decide, by decide, by decide,
    C7_hop_never_dropped.2.2 (fun _ => none) "garbage"
      (by decide) (by decide) (by decide) (by decide)⟩

/-- The delay loop, hop by hop: hop i is the original hop, with its delay set
to the difference of the adjacent timestamps when both exist. -/
theorem computeDelays_get? (hops : List ReceivedHop)
    (hdel : ∀ h ∈ hops, h.delay = none) (i : Nat) :
    ((computeDelays hops).get? i).map (fun h => h.delay) =
      (hops.get? i).map (fun cur =>
        match hops.get? (i + 1) with
        | some nxt =>
          match cur.timestamp, nxt.timestamp with
          | some t, some p => some (t - p)
          | _, _ => none
        | none => none) := by
  induction hops generalizing i with
  | nil => simp [computeDelays]
  | cons h t ih =>
    cases t with
    | nil =>
      cases i with
      | zero => simp [computeDelays, hdel h (by simp)]
      | succ j => simp [computeDelays]
    | cons h2 t2 =>
      cases i with
      | zero =>
        have hd : h.delay = none := hdel h (by simp)
        cases hts : h.timestamp <;> cases h2ts : h2.timestamp <;>
          simp [computeDelays, hts, h2ts, hd]
      | succ j =>
        have ih' := ih (fun x hx => hdel x (List.mem_cons_of_mem _ hx)) j
        simpa [computeDelays] using ih'

/-- C3: for hops in most-recent-first order with no pre-assigned delays, the
chain keeps its length, and hop i gets `delay = timestamp[i] - timestamp[i+1]`
exactly when both timestamps exist (the signed difference, so negative skews
are preserved); the delay is absent when either timestamp is missing, and the
last hop never has a delay. -/
theorem C3_delay_computation :
    ∀ hops : List ReceivedHop, (∀ h ∈ hops, h.delay = none) →
      (computeDelays hops).length = hops.length ∧
      ∀ i : Nat, ((computeDelays hops).get? i).map (fun h => h.delay) =
        (hops.get? i).map (fun cur =>
          match hops.get? (i + 1) with
          | some nxt =>
            match cur.timestamp, nxt.timestamp with
            | some t, some p => some (t - p)
            | _, _ => none
          | none => none) := by
  intro hops hdel
  exact ⟨computeDelays_length hops, computeDelays_get? hops hdel⟩

/-- A newer hop for the C3 witness (timestamp 5000 ms). -/
def hopNewer : ReceivedHop :=
  { from_ := none, by_ := none, with_ := none, timestamp := some 5000
    delay := none, rawHeader := "a" }

/-- An older hop for the C3 witness (timestamp 2000 ms). -/
def hopOlder : ReceivedHop :=
  { from_ := none, by_ := none, with_ := none, timestamp := some 2000
    delay := none, rawHeader := "b" }

/-- C3 witness: on a concrete two-hop chain the first hop gets delay
`5000 - 2000` and the last hop has no delay. -/
theorem C3_witness :
    ((computeDelays [hopNewer, hopOlder]).get? 0).map (fun h => h.delay) =
        some (some 3000) ∧
      ((computeDelays [hopNewer, hopOlder]).get? 1).map (fun h => h.delay) =
        some none :=
  ⟨((C3_delay_computation [hopNewer, hopOlder] (by decide)).2 0).trans (by decide),
   ((C3_delay_computation [hopNewer, hopOlder] (by decide)).2 1).trans (by decide)⟩

/-! ## Result-normalization invariant (C5) and its supporting lemmas -/

/-- The eight values the `result` field may take. -/
def allOutcomes : List String :=
  ["pass", "fail", "softfail", "neutral", "none", "temperror", "permerror", "unknown"]

/-- Normalization always lands in the eight defined outcomes. -/
theorem normalizeResult_mem (s : String) : normalizeResult s ∈ allOutcomes := by
  by_cases hc : validResults.contains (jsToLower s) = true
  · have heq : normalizeResult s = jsToLower s := by
      show (if validResults.contains (jsToLower s) = true then jsToLower s else "unknown") =
        jsToLower s
      rw [if_pos hc]
    rw [heq]
    have hm : jsToLower s ∈ validResults := by
      simpa using List.elem_iff.1 hc
    have hsub : ∀ x ∈ validResults, x ∈ allOutcomes := by
      intro x hx
      fin_cases hx <;> decide
    exact hsub _ hm
  · have heq : normalizeResult s = "unknown" := by
      show (if validResults.contains (jsToLower s) = true then jsToLower s else "unknown") =
        "unknown"
      rw [if_neg hc]
    rw [heq]; decide

/-- Every member of a `mapSet` result is an old member or the new pair. -/
theorem mem_mapSet (m : List (String × AuthenticationResult)) (k : String)
    (v : AuthenticationResult) (q : String × AuthenticationResult)
    (hq : q ∈ mapSet m k v) : q ∈ m ∨ q = (k, v) := by
  induction m with
  | nil =>
    simp [mapSet] at hq
    right; exact hq
  | cons p m ih =>
    by_cases hp : p.1 = k
    · simp [mapSet, hp] at hq
      rcases hq with rfl | hq
      · right; rfl
      · left; exact List.mem_cons_of_mem _ hq
    · simp [mapSet, hp] at hq
      rcases hq with rfl | hq
      · left; exact List.mem_cons_self _ _
      · rcases ih hq with h | h
        · left; exact List.mem_cons_of_mem _ h
        · right; exact h

/-- Every member of a `dedupStep` result is an old member or the keyed pair
for the incoming result. -/
theorem mem_dedupStep (m : List (String × AuthenticationResult))
    (r : AuthenticationResult) (q : String × AuthenticationResult)
    (hq : q ∈ dedupStep m r) : q ∈ m ∨ q = (dedupKey r, r) := by
  unfold dedupStep at hq
  cases hlook : mapLookup m (dedupKey r) with
  | none =>
    rw [hlook] at hq
    exact mem_mapSet m _ r q hq
  | some e =>
    rw [hlook] at hq
    have hq2 : q ∈ (if e.result = "unknown" ∧ r.result ≠ "unknown" then
        mapSet m (dedupKey r) r else m) := hq
    by_cases hcond : e.result = "unknown" ∧ r.result ≠ "unknown"
    · rw [if_pos hcond] at hq2
      exact mem_mapSet m _ r q hq2
    · rw [if_neg hcond] at hq2
      left; exact hq2

/-- Every entry of the folded deduplication map comes from the initial map or
from the processed list. -/
theorem mem_foldl_dedupStep (rs : List AuthenticationResult) :
    ∀ (m : List (String × AuthenticationResult)) (q : String × AuthenticationResult),
      q ∈ List.foldl dedupStep m rs → q ∈ m ∨ q.2 ∈ rs := by
  induction rs with
  | nil => intro m q hq; left; exact hq
  | cons r rs ih =>
    intro m q hq
    rw [List.foldl_cons] at hq
    rcases ih (dedupStep m r) q hq with h | h
    · rcases mem_dedupStep m r q h with h' | h'
      · left; exact h'
      · right; rw [h']; exact List.mem_cons_self _ _
    · right; exact List.mem_cons_of_mem _ h

/-- Deduplication only keeps entries that were in its input. -/
theorem dedup_subset (rs : List AuthenticationResult) (r : AuthenticationResult)
    (hr : r ∈ deduplicateAuthResults rs) : r ∈ rs := by
  unfold deduplicateAuthResults at hr
  rcases List.mem_map.1 hr with ⟨q, hq, hq2⟩
  rcases mem_foldl_dedupStep rs [] q hq with h | h
  · simp at h
  · rw [← hq2]; exact h

/-- Every entry of `parseAuthenticationResultsHeader` carries a normalized
result token. -/
theorem mem_parseARH_result (h : String) (r : AuthenticationResult)
    (hr : r ∈ parseAuthenticationResultsHeader h) : ∃ t, r.result = normalizeResult t := by
  unfold parseAuthenticationResultsHeader at hr
  simp only [List.mem_append] at hr
  rcases hr with ((hr | hr) | hr) | hr
  · revert hr
    cases arPattern "spf=" h with
    | none => intro hr; simp at hr
    | some x =>
      intro hr
      simp at hr
      exact ⟨x.1, by rw [hr]; rfl⟩
  · revert hr
    cases arPatternDkim h with
    | none => intro hr; simp at hr
    | some x =>
      intro hr
      simp at hr
      exact ⟨x.1, by rw [hr]; rfl⟩
  · revert hr
    cases arPattern "dmarc=" h with
    | none => intro hr; simp at hr
    | some x =>
      intro hr
      simp at hr
      exact ⟨x.1, by rw [hr]; rfl⟩
  · revert hr
    cases arPattern "arc=" h with
    | none => intro hr; simp at hr
    | some x =>
      intro hr
      simp at hr
      exact ⟨x.1, by rw [hr]; rfl⟩

/-- Every pre-deduplication entry has a result among the eight outcomes. -/
theorem collect_result_mem (headers : List EmailHeader) (r : AuthenticationResult)
    (hr : r ∈ collectAuthResults headers) : r.result ∈ allOutcomes := by
  unfold collectAuthResults at hr
  simp only [List.mem_append] at hr
  rcases hr with ((hr | hr) | hr) | hr
  · rcases List.mem_flatten.1 hr with ⟨l, hl, hrl⟩
    rcases List.mem_map.1 hl with ⟨ah, _, rfl⟩
    rcases mem_parseARH_result ah r hrl with ⟨t, ht⟩
    rw [ht]; exact normalizeResult_mem t
  · rcases List.mem_filterMap.1 hr with ⟨sh, _, hsome⟩
    unfold parseSpfHeader at hsome
    rcases Option.map_eq_some'.1 hsome with ⟨tok, _, hrec⟩
    rw [← hrec]
    exact normalizeResult_mem tok
  · rcases List.mem_filterMap.1 hr with ⟨dh, _, hsome⟩
    unfold parseDkimSignatureHeader at hsome
    have heq := Option.some.inj hsome
    have hres : r.result = "unknown" := by rw [← heq]
    rw [hres]; decide
  · rcases List.mem_filterMap.1 hr with ⟨ah, _, hsome⟩
    unfold parseArcHeader at hsome
    have heq := Option.some.inj hsome
    have hres : r.result = (match cvCapture ah with
      | some t => normalizeResult t
      | none => "unknown") := by rw [← heq]
    cases hcv : cvCapture ah with
    | none => rw [hcv] at hres; rw [hres]; decide
    | some t => rw [hcv] at hres; rw [hres]; exact normalizeResult_mem t

/-- C5: normalization lower-cases the token, keeps it when it is one of the
seven concrete outcomes and classifies it as `unknown` otherwise; it is
case-insensitive and total; consequently every `AuthenticationResult`
produced by the full parsing pipeline has a `result` among the seven
outcomes or `unknown`, never an unrecognized raw string. -/
theorem C5_result_invariant :
    (∀ s, normalizeResult s = jsToLower s ∨ normalizeResult s = "unknown") ∧
    (∀ s, normalizeResult s ∈ allOutcomes) ∧
    normalizeResult "PaSs" = "pass" ∧
    normalizeResult "bogus" = "unknown" ∧
    (∀ headers r, r ∈ parseAuthenticationHeaders headers → r.result ∈ allOutcomes) := by
  refine ⟨?_, normalizeResult_mem, by decide, by decide, ?_⟩
  · intro s
    by_cases hc : validResults.contains (jsToLower s) = true
    · left
      show (if validResults.contains (jsToLower s) = true then jsToLower s else "unknown") =
        jsToLower s
      rw [if_pos hc]
    · right
      show (if validResults.contains (jsToLower s) = true then jsToLower s else "unknown") =
        "unknown"
      rw [if_neg hc]
  · intro headers r hr
    exact collect_result_mem headers r (dedup_subset _ r hr)

/-- The single entry produced from the C5 witness header. -/
def arcEntryEx : AuthenticationResult :=
  { method := "arc", result := "pass", details := "i=1; cv=Pass; d=x.com"
    domain := some "x.com", selector := none, rawHeader := some "i=1; cv=Pass; d=x.com" }

/-- C5 witness: a concrete pipeline output entry whose result is among the
eight outcomes. -/
theorem C5_witness :
    arcEntryEx ∈ parseAuthenticationHeaders
        [{ key := "ARC-Seal", value := "i=1; cv=Pass; d=x.com" }] ∧
      arcEntryEx.result ∈ allOutcomes :=
  ⟨by decide,
    C5_result_invariant.2.2.2.2 [{ key := "ARC-Seal", value := "i=1; cv=Pass; d=x.com" }]
      arcEntryEx (by decide)⟩

/-! ## Missing-authentication warnings (C6) -/

/-- A key that no header matches selects nothing. -/
theorem findAllHeaders_eq_nil_of (headers : List EmailHeader) (key : String)
    (hk : ∀ h ∈ headers, jsToLower h.key ≠ jsToLower key) :
    findAllHeaders headers key = [] := by
  unfold findAllHeaders
  have hfil : headers.filter (fun h => jsToLower h.key = jsToLower key) = [] :=
    List.filter_eq_nil_iff.2 (fun h hh => by simpa using hk h hh)
  rw [hfil]; rfl

/-- Every Return-Path mismatch warning has the fixed severity and title. -/
theorem mem_returnPathMismatchWarnings (fromAddrs : Option (List EmailAddress))
    (returnPath : Option String) (w : AnalysisWarning)
    (hw : w ∈ returnPathMismatchWarnings fromAddrs returnPath) :
    w.severity = "warning" ∧ w.title = "Return-Path Domain Mismatch" := by
  unfold returnPathMismatchWarnings at hw
  split at hw
  · split at hw
    · simp at hw
    · split at hw
      · split at hw
        · simp at hw
          rw [hw]
          exact ⟨rfl, rfl⟩
        · simp at hw
      · simp at hw
  · simp at hw

/-- Every X-Mailer warning has the fixed severity and title. -/
theorem mem_xMailerWarnings (headers : List EmailHeader) (w : AnalysisWarning)
    (hw : w ∈ xMailerWarnings headers) :
    w.severity = "info" ∧ w.title = "Automated Sending Detected" := by
  unfold xMailerWarnings at hw
  split at hw
  · split at hw
    · simp at hw
      rw [hw]
      exact ⟨rfl, rfl⟩
    · simp at hw
  · simp at hw

/-- C6: a message with no authentication-related header at all yields zero
`AuthenticationResult` entries, exactly the three info-severity missing-method
warnings (one each for spf, dkim, dmarc), and zero error-severity warnings. -/
theorem C6_no_auth_headers :
    ∀ headers fromAddrs returnPath,
      (∀ h ∈ headers, jsToLower h.key ∉
        (["authentication-results", "received-spf", "dkim-signature", "arc-seal"] :
          List String)) →
      parseAuthenticationHeaders headers = [] ∧
      (generateWarnings (parseAuthenticationHeaders headers) fromAddrs returnPath
          headers).filter
          (fun w => w.title = "No SPF Record Found" ∨ w.title = "No DKIM Signature Found" ∨
            w.title = "No DMARC Record Found") =
        [noSpfWarning, noDkimWarning, noDmarcWarning] ∧
      (generateWarnings (parseAuthenticationHeaders headers) fromAddrs returnPath
          headers).countP (fun w => w.severity = "error") = 0 := by
  intro headers fromAddrs returnPath hnone
  have hk : ∀ key ∈ (["authentication-results", "received-spf", "dkim-signature",
      "arc-seal"] : List String), findAllHeaders headers key = [] := by
    intro key hkey
    refine findAllHeaders_eq_nil_of headers key (fun h hh heq => hnone h hh ?_)
    rw [heq]
    fin_cases hkey <;> decide
  have hauth : parseAuthenticationHeaders headers = [] := by
    unfold parseAuthenticationHeaders collectAuthResults
    rw [hk "authentication-results" (by decide), hk "received-spf" (by decide),
      hk "dkim-signature" (by decide), hk "arc-seal" (by decide)]
    rfl
  refine ⟨hauth, ?_, ?_⟩
  · rw [hauth]
    show ([] ++ [noSpfWarning, noDkimWarning, noDmarcWarning] ++
        returnPathMismatchWarnings fromAddrs returnPath ++
        xMailerWarnings headers).filter _ = _
    rw [List.filter_append, List.filter_append, List.filter_append]
    have hmis : (returnPathMismatchWarnings fromAddrs returnPath).filter
        (fun w => decide (w.title = "No SPF Record Found" ∨
          w.title = "No DKIM Signature Found" ∨ w.title = "No DMARC Record Found")) = [] := by
      refine List.filter_eq_nil_iff.2 (fun w hw => ?_)
      have ht := (mem_returnPathMismatchWarnings fromAddrs returnPath w hw).2
      simp [ht]
    have hxm : (xMailerWarnings headers).filter
        (fun w => decide (w.title = "No SPF Record Found" ∨
          w.title = "No DKIM Signature Found" ∨ w.title = "No DMARC Record Found")) = [] := by
      refine List.filter_eq_nil_iff.2 (fun w hw => ?_)
      have ht := (mem_xMailerWarnings headers w hw).2
      simp [ht]
    rw [hmis, hxm]
    decide
  · rw [hauth]
    show ([] ++ [noSpfWarning, noDkimWarning, noDmarcWarning] ++
        returnPathMismatchWarnings fromAddrs returnPath ++
        xMailerWarnings headers).countP _ = 0
    rw [List.countP_append, List.countP_append, List.countP_append]
    have hmis : (returnPathMismatchWarnings fromAddrs returnPath).countP
        (fun w => decide (w.severity = "error")) = 0 := by
      refine List.countP_eq_zero.2 (fun w hw => ?_)
      have hs := (mem_returnPathMismatchWarnings fromAddrs returnPath w hw).1
      simp [hs]
    have hxm : (xMailerWarnings headers).countP
        (fun w => decide (w.severity = "error")) = 0 := by
      refine List.countP_eq_zero.2 (fun w hw => ?_)
      have hs := (mem_xMailerWarnings headers w hw).1
      simp [hs]
    rw [hmis, hxm]
    decide

/-- C6 witness: a message whose only header is a Subject line. -/
theorem C6_witness :
    parseAuthenticationHeaders [{ key := "Subject", value := "hello" }] = [] ∧
      (generateWarnings (parseAuthenticationHeaders [{ key := "Subject", value := "hello" }])
          none none [{ key := "Subject", value := "hello" }]).filter
          (fun w => w.title = "No SPF Record Found" ∨ w.title = "No DKIM Signature Found" ∨
            w.title = "No DMARC Record Found") =
        [noSpfWarning, noDkimWarning, noDmarcWarning] ∧
      (generateWarnings (parseAuthenticationHeaders [{ key := "Subject", value := "hello" }])
          none none [{ key := "Subject", value := "hello" }]).countP
          (fun w => w.severity = "error") = 0 :=
  C6_no_auth_headers [{ key := "Subject", value := "hello" }] none none (by decide)

/-! ## Return-Path mismatch warning (C10) -/

/-- Two strings differ whenever one has a fixed tail that disagrees with the
corresponding tail of the other. -/
theorem append_ne_of_tail (s t u : String) (hle : t.data.length ≤ u.data.length)
    (hne : t.data ≠ u.data.drop (u.data.length - t.data.length)) : s ++ t ≠ u := by
  intro h
  have hd : s.data ++ t.data = u.data := by
    rw [← String.data_append, h]
  have hlen : s.data.length + t.data.length = u.data.length := by
    rw [← hd, List.length_append]
  have hdrop : (s.data ++ t.data).drop s.data.length = t.data := List.drop_left _ _
  rw [hd] at hdrop
  have hsl : s.data.length = u.data.length - t.data.length := by omega
  rw [hsl] at hdrop
  exact hne hdrop.symm

/-- Every warning emitted by the authentication-result loop bears one of the
three method-suffixed titles. -/
theorem mem_authResultWarnings_title (authentication : List AuthenticationResult)
    (w : AnalysisWarning) (hw : w ∈ authResultWarnings authentication) :
    ∃ m, w.title = m ++ " Authentication Failed" ∨ w.title = m ++ " Soft Fail" ∨
      w.title = m ++ " Temporary Error" := by
  induction authentication with
  | nil => simp [authResultWarnings] at hw
  | cons a t ih =>
    unfold authResultWarnings at hw
    rw [List.foldr_cons] at hw
    rcases List.mem_append.1 hw with hw | hw
    · refine ⟨jsToUpper a.method, ?_⟩
      split at hw
      · simp at hw
        rw [hw]; left; rfl
      · split at hw
        · simp at hw
          rw [hw]; right; left; rfl
        · split at hw
          · simp at hw
            rw [hw]; right; right; rfl
          · simp at hw
    · exact ih hw

/-- No warning of the authentication-result loop is the mismatch warning. -/
theorem authResultWarnings_no_mismatch (authentication : List AuthenticationResult)
    (w : AnalysisWarning) (hw : w ∈ authResultWarnings authentication) :
    w.title ≠ "Return-Path Domain Mismatch" := by
  rcases mem_authResultWarnings_title authentication w hw with ⟨m, hm | hm | hm⟩ <;> rw [hm]
  · exact append_ne_of_tail m " Authentication Failed" "Return-Path Domain Mismatch"
      (by decide) (by decide)
  · exact append_ne_of_tail m " Soft Fail" "Return-Path Domain Mismatch"
      (by decide) (by decide)
  · exact append_ne_of_tail m " Temporary Error" "Return-Path Domain Mismatch"
      (by decide) (by decide)

/-- C10: within `generateWarnings`, the Return-Path mismatch warning appears
exactly once when the lower-cased domain segment after the first `@` of the
first From address and of the Return-Path are both present and nonempty and
differ, and never otherwise; the count depends on nothing but `from[0].address`
and `returnPath` — in particular later From addresses, the authentication
results and the remaining headers never affect it. -/
theorem C10_mismatch_first_from_only :
    ∀ (authentication : List AuthenticationResult) (headers : List EmailHeader)
      (f0 : EmailAddress) (rest : List EmailAddress) (returnPath : Option String),
      (generateWarnings authentication (some (f0 :: rest)) returnPath headers).countP
          (fun w => w.title = "Return-Path Domain Mismatch") =
        (match returnPath with
         | none => 0
         | some rp =>
           match ((jsSplitChar '@' f0.address).get? 1).map jsToLower,
               ((jsSplitChar '@' rp).get? 1).map jsToLower with
           | some fd, some rd => if fd ≠ "" ∧ rd ≠ "" ∧ fd ≠ rd then 1 else 0
           | _, _ => 0) := by
  intro authentication headers f0 rest returnPath
  unfold generateWarnings
  rw [List.countP_append, List.countP_append, List.countP_append]
  have hauth : (authResultWarnings authentication).countP
      (fun w => decide (w.title = "Return-Path Domain Mismatch")) = 0 := by
    refine List.countP_eq_zero.2 (fun w hw => ?_)
    simpa using authResultWarnings_no_mismatch authentication w hw
  have hmiss : (missingAuthWarnings authentication).countP
      (fun w => decide (w.title = "Return-Path Domain Mismatch")) = 0 := by
    unfold missingAuthWarnings
    rw [List.countP_append, List.countP_append]
    split <;> split <;> split <;> decide
  have hxm : (xMailerWarnings headers).countP
      (fun w => decide (w.title = "Return-Path Domain Mismatch")) = 0 := by
    refine List.countP_eq_zero.2 (fun w hw => ?_)
    have ht := (mem_xMailerWarnings headers w hw).2
    simp [ht]
  rw [hauth, hmiss, hxm]
  simp only [Nat.zero_add, Nat.add_zero]
  cases returnPath with
  | none => rfl
  | some rp =>
    have heq : returnPathMismatchWarnings (some (f0 :: rest)) (some rp) =
        (if rp = "" then []
         else
           match ((jsSplitChar '@' f0.address).get? 1).map jsToLower,
               ((jsSplitChar '@' rp).get? 1).map jsToLower with
           | some fromDomain, some returnPathDomain =>
             if fromDomain ≠ "" ∧ returnPathDomain ≠ "" ∧ fromDomain ≠ returnPathDomain then
               [{ severity := "warning"
                  title := "Return-Path Domain Mismatch"
                  description := "The Return-Path domain (" ++ returnPathDomain ++
                    ") differs from the From domain (" ++ fromDomain ++
                    "). This is common for mailing lists but could indicate spoofing."
                  relatedHeader := none }]
             else []
           | _, _ => []) := rfl
    show (returnPathMismatchWarnings (some (f0 :: rest)) (some rp)).countP
        (fun w => decide (w.title = "Return-Path Domain Mismatch")) =
      (match ((jsSplitChar '@' f0.address).get? 1).map jsToLower,
          ((jsSplitChar '@' rp).get? 1).map jsToLower with
       | some fd, some rd => if fd ≠ "" ∧ rd ≠ "" ∧ fd ≠ rd then 1 else 0
       | _, _ => 0)
    rw [heq]
    by_cases hrp : rp = ""
    · rw [if_pos hrp]
      subst hrp
      rw [show ((jsSplitChar '@' "").get? 1).map jsToLower = none from by decide]
      cases ((jsSplitChar '@' f0.address).get? 1).map jsToLower <;> rfl
    · rw [if_neg hrp]
      cases ((jsSplitChar '@' f0.address).get? 1).map jsToLower with
      | none =>
        cases ((jsSplitChar '@' rp).get? 1).map jsToLower <;> rfl
      | some fd =>
        cases ((jsSplitChar '@' rp).get? 1).map jsToLower with
        | none => rfl
        | some rd =>
          show List.countP (fun (w : AnalysisWarning) =>
                decide (w.title = "Return-Path Domain Mismatch"))
              (if fd ≠ "" ∧ rd ≠ "" ∧ fd ≠ rd then
                ([{ severity := "warning"
                    title := "Return-Path Domain Mismatch"
                    description := "The Return-Path domain (" ++ rd ++
                      ") differs from the From domain (" ++ fd ++
                      "). This is common for mailing lists but could indicate spoofing."
                    relatedHeader := none }] : List AnalysisWarning)
               else []) =
            (if fd ≠ "" ∧ rd ≠ "" ∧ fd ≠ rd then 1 else 0)
          by_cases hcond : fd ≠ "" ∧ rd ≠ "" ∧ fd ≠ rd
          · rw [if_pos hcond, if_pos hcond]
            rfl
          · rw [if_neg hcond, if_neg hcond]
            rfl

/-! ## Deduplication characterization (C1)

`winnerFor` states the claimed policy in the claim's own terms — among the
entries sharing a key, the first one with a concrete (non-`unknown`) result
wins, and when all are `unknown` the first entry wins — to be compared with
the source translation `deduplicateAuthResults`. -/

/-- The input entries sharing a given deduplication key, in order. -/
def keyGroup (k : String) (rs : List AuthenticationResult) : List AuthenticationResult :=
  rs.filter (fun r => dedupKey r = k)

/-- The first entry of the key group with a concrete result. -/
def firstConcrete (k : String) (rs : List AuthenticationResult) :
    Option AuthenticationResult :=
  (keyGroup k rs).find? (fun r => r.result ≠ "unknown")

/-- The claimed surviving entry for a key: the first concrete entry of the
group if any, else the first entry of the group. -/
def winnerFor (k : String) (rs : List AuthenticationResult) :
    Option AuthenticationResult :=
  match keyGroup k rs with
  | [] => none
  | g :: _ => some ((firstConcrete k rs).getD g)

/-- The surviving entry for a key when the map already holds `cur` for it and
the entries `rs` are still to be processed. -/
def resolveFrom (cur : Option AuthenticationResult) (k : String)
    (rs : List AuthenticationResult) : Option AuthenticationResult :=
  match cur with
  | none => winnerFor k rs
  | some e =>
    if e.result = "unknown" then some ((firstConcrete k rs).getD e) else some e

/-- Looking up after `Map.set`. -/
theorem mapLookup_mapSet (m : List (String × AuthenticationResult)) (k : String)
    (v : AuthenticationResult) (k' : String) :
    mapLookup (mapSet m k v) k' = if k = k' then some v else mapLookup m k' := by
  induction m with
  | nil => rfl
  | cons p m ih =>
    by_cases hp : p.1 = k
    · have hset : mapSet (p :: m) k v = (k, v) :: m := by
        show (if p.1 = k then (k, v) :: m else p :: mapSet m k v) = _
        rw [if_pos hp]
      rw [hset]
      show (if k = k' then some v else mapLookup m k') =
        if k = k' then some v else mapLookup (p :: m) k'
      by_cases hk : k = k'
      · rw [if_pos hk, if_pos hk]
      · rw [if_neg hk, if_neg hk]
        show mapLookup m k' = if p.1 = k' then some p.2 else mapLookup m k'
        rw [if_neg (fun h => hk (hp ▸ h))]
    · have hset : mapSet (p :: m) k v = p :: mapSet m k v := by
        show (if p.1 = k then (k, v) :: m else p :: mapSet m k v) = _
        rw [if_neg hp]
      rw [hset]
      show (if p.1 = k' then some p.2 else mapLookup (mapSet m k v) k') =
        if k = k' then some v else mapLookup (p :: m) k'
      by_cases hpk : p.1 = k'
      · rw [if_pos hpk]
        have hk : k ≠ k' := fun h => hp (by rw [h, hpk])
        rw [if_neg hk]
        show some p.2 = if p.1 = k' then some p.2 else mapLookup m k'
        rw [if_pos hpk]
      · rw [if_neg hpk, ih]
        by_cases hk : k = k'
        · rw [if_pos hk, if_pos hk]
        · rw [if_neg hk, if_neg hk]
          show mapLookup m k' = if p.1 = k' then some p.2 else mapLookup m k'
          rw [if_neg hpk]

/-- Looking up after one deduplication step. -/
theorem lookup_dedupStep (m : List (String × AuthenticationResult))
    (r : AuthenticationResult) (k : String) :
    mapLookup (dedupStep m r) k =
      if dedupKey r = k then
        (match mapLookup m k with
         | none => some r
         | some e =>
           if e.result = "unknown" ∧ r.result ≠ "unknown" then some r else some e)
      else mapLookup m k := by
  by_cases hk : dedupKey r = k
  · subst hk
    rw [if_pos rfl]
    cases hm : mapLookup m (dedupKey r) with
    | none =>
      simp only [dedupStep, hm]
      rw [mapLookup_mapSet, if_pos rfl]
    | some e =>
      simp only [dedupStep, hm]
      by_cases hcond : e.result = "unknown" ∧ r.result ≠ "unknown"
      · rw [if_pos hcond, if_pos hcond, mapLookup_mapSet, if_pos rfl]
      · rw [if_neg hcond, if_neg hcond]
        exact hm
  · rw [if_neg hk]
    cases hm : mapLookup m (dedupKey r) with
    | none =>
      simp only [dedupStep, hm]
      rw [mapLookup_mapSet, if_neg hk]
    | some e =>
      simp only [dedupStep, hm]
      by_cases hcond : e.result = "unknown" ∧ r.result ≠ "unknown"
      · rw [if_pos hcond, mapLookup_mapSet, if_neg hk]
      · rw [if_neg hcond]

/-- Resolving against an empty remainder returns the current entry. -/
theorem resolveFrom_nil (cur : Option AuthenticationResult) (k : String) :
    resolveFrom cur k [] = cur := by
  cases cur with
  | none => rfl
  | some e =>
    show (if e.result = "unknown" then some ((firstConcrete k []).getD e) else some e) =
      some e
    by_cases he : e.result = "unknown"
    · rw [if_pos he]; rfl
    · rw [if_neg he]

/-- Peeling one entry off the remainder commutes with one deduplication
step on the current entry. -/
theorem resolveFrom_cons (cur : Option AuthenticationResult) (k : String)
    (r : AuthenticationResult) (rs : List AuthenticationResult) :
    resolveFrom cur k (r :: rs) =
      resolveFrom
        (if dedupKey r = k then
          (match cur with
           | none => some r
           | some e =>
             if e.result = "unknown" ∧ r.result ≠ "unknown" then some r else some e)
        else cur) k rs := by
  by_cases hk : dedupKey r = k
  · rw [if_pos hk]
    have hkg : keyGroup k (r :: rs) = r :: keyGroup k rs := by
      simp [keyGroup, List.filter_cons, hk]
    have hfc : firstConcrete k (r :: rs) =
        (if r.result ≠ "unknown" then some r else firstConcrete k rs) := by
      unfold firstConcrete
      rw [hkg, List.find?_cons]
      by_cases hr : r.result ≠ "unknown"
      · rw [if_pos hr]
        simp [hr]
      · rw [if_neg hr]
        simp [hr]
    cases cur with
    | none =>
      show winnerFor k (r :: rs) = resolveFrom (some r) k rs
      unfold winnerFor
      rw [hkg]
      show some ((firstConcrete k (r :: rs)).getD r) = resolveFrom (some r) k rs
      rw [hfc]
      show _ = (if r.result = "unknown" then some ((firstConcrete k rs).getD r) else some r)
      by_cases hr : r.result = "unknown"
      · rw [if_pos hr, if_neg (by simpa using hr)]
      · rw [if_neg hr, if_pos hr]
        rfl
    | some e =>
      show (if e.result = "unknown" then some ((firstConcrete k (r :: rs)).getD e)
          else some e) =
        resolveFrom (if e.result = "unknown" ∧ r.result ≠ "unknown" then some r else some e)
          k rs
      by_cases he : e.result = "unknown"
      · rw [if_pos he]
        by_cases hr : r.result ≠ "unknown"
        · rw [if_pos ⟨he, hr⟩]
          show some ((firstConcrete k (r :: rs)).getD e) =
            (if r.result = "unknown" then some ((firstConcrete k rs).getD r) else some r)
          rw [hfc, if_pos hr, if_neg (by simpa using hr)]
          rfl
        · rw [if_neg (fun hc => hr hc.2)]
          show some ((firstConcrete k (r :: rs)).getD e) =
            (if e.result = "unknown" then some ((firstConcrete k rs).getD e) else some e)
          rw [if_pos he, hfc, if_neg hr]
      · rw [if_neg he, if_neg (fun hc => he hc.1)]
        show some e = (if e.result = "unknown" then some ((firstConcrete k rs).getD e)
          else some e)
        rw [if_neg he]
  · rw [if_neg hk]
    have hkg : keyGroup k (r :: rs) = keyGroup k rs := by
      simp [keyGroup, List.filter_cons, hk]
    have hfc : firstConcrete k (r :: rs) = firstConcrete k rs := by
      unfold firstConcrete
      rw [hkg]
    cases cur with
    | none =>
      show winnerFor k (r :: rs) = winnerFor k rs
      unfold winnerFor
      rw [hkg, hfc]
    | some e =>
      show (if e.result = "unknown" then some ((firstConcrete k (r :: rs)).getD e)
          else some e) =
        (if e.result = "unknown" then some ((firstConcrete k rs).getD e) else some e)
      rw [hfc]

/-- Folding the deduplication step resolves each key from its current map
entry through the remaining input. -/
theorem foldl_dedup_lookup (rs : List AuthenticationResult) :
    ∀ (m : List (String × AuthenticationResult)) (k : String),
      mapLookup (List.foldl dedupStep m rs) k = resolveFrom (mapLookup m k) k rs := by
  induction rs with
  | nil =>
    intro m k
    rw [List.foldl_nil, resolveFrom_nil]
  | cons r rs ih =>
    intro m k
    rw [List.foldl_cons, ih, resolveFrom_cons, lookup_dedupStep]

/-- Every entry of the folded map is keyed by its own deduplication key. -/
theorem keysOk_foldl (rs : List AuthenticationResult) :
    ∀ (m : List (String × AuthenticationResult)),
      (∀ p ∈ m, p.1 = dedupKey p.2) →
      ∀ p ∈ List.foldl dedupStep m rs, p.1 = dedupKey p.2 := by
  induction rs with
  | nil => intro m hm p hp; exact hm p hp
  | cons r rs ih =>
    intro m hm p hp
    rw [List.foldl_cons] at hp
    refine ih (dedupStep m r) ?_ p hp
    intro q hq
    rcases mem_dedupStep m r q hq with h | h
    · exact hm q h
    · rw [h]

/-- Finding a value by its recomputed key equals the map lookup, when every
entry is keyed by its own key. -/
theorem values_find? (k : String) :
    ∀ (m : List (String × AuthenticationResult)),
      (∀ p ∈ m, p.1 = dedupKey p.2) →
      (m.map (·.2)).find? (fun r => dedupKey r = k) = mapLookup m k := by
  intro m
  induction m with
  | nil => intro _; rfl
  | cons p m ih =>
    intro hm
    have hp := hm p (List.mem_cons_self p m)
    show ((p.2 :: m.map (·.2)).find? (fun r => decide (dedupKey r = k))) = _
    rw [List.find?_cons]
    by_cases hd : dedupKey p.2 = k
    · rw [show decide (dedupKey p.2 = k) = true from by simp [hd]]
      show some p.2 = mapLookup (p :: m) k
      show some p.2 = if p.1 = k then some p.2 else mapLookup m k
      rw [if_pos (hp.trans hd)]
    · rw [show decide (dedupKey p.2 = k) = false from by simp [hd]]
      show (m.map (·.2)).find? (fun r => decide (dedupKey r = k)) = mapLookup (p :: m) k
      rw [ih (fun q hq => hm q (List.mem_cons_of_mem _ hq))]
      show mapLookup m k = if p.1 = k then some p.2 else mapLookup m k
      rw [if_neg (fun h => hd (by rw [← hp]; exact h))]

/-- `Map.set` keeps the keys without duplicates. -/
theorem keys_nodup_mapSet (m : List (String × AuthenticationResult)) (k : String)
    (v : AuthenticationResult) (h : (m.map (·.1)).Nodup) :
    ((mapSet m k v).map (·.1)).Nodup := by
  induction m with
  | nil => simp [mapSet]
  | cons p m ih =>
    by_cases hp : p.1 = k
    · have hset : mapSet (p :: m) k v = (k, v) :: m := by
        show (if p.1 = k then (k, v) :: m else p :: mapSet m k v) = _
        rw [if_pos hp]
      rw [hset]
      simp only [List.map_cons] at h ⊢
      rw [← hp]
      exact h
    · have hset : mapSet (p :: m) k v = p :: mapSet m k v := by
        show (if p.1 = k then (k, v) :: m else p :: mapSet m k v) = _
        rw [if_neg hp]
      rw [hset]
      simp only [List.map_cons, List.nodup_cons] at h ⊢
      obtain ⟨hnotin, hnd⟩ := h
      refine ⟨?_, ih hnd⟩
      intro hmem
      rcases List.mem_map.1 hmem with ⟨q, hq, hq1⟩
      rcases mem_mapSet m k v q hq with h' | h'
      · exact hnotin (hq1 ▸ List.mem_map_of_mem (·.1) h')
      · exact hp (by rw [← hq1, h'])

/-- One deduplication step keeps the keys without duplicates. -/
theorem keys_nodup_dedupStep (m : List (String × AuthenticationResult))
    (r : AuthenticationResult) (h : (m.map (·.1)).Nodup) :
    ((dedupStep m r).map (·.1)).Nodup := by
  cases hm : mapLookup m (dedupKey r) with
  | none =>
    simp only [dedupStep, hm]
    exact keys_nodup_mapSet m _ r h
  | some e =>
    simp only [dedupStep, hm]
    by_cases hcond : e.result = "unknown" ∧ r.result ≠ "unknown"
    · rw [if_pos hcond]
      exact keys_nodup_mapSet m _ r h
    · rw [if_neg hcond]
      exact h

/-- The folded deduplication map keeps its keys without duplicates. -/
theorem keys_nodup_foldl (rs : List AuthenticationResult) :
    ∀ (m : List (String × AuthenticationResult)),
      (m.map (·.1)).Nodup → ((List.foldl dedupStep m rs).map (·.1)).Nodup := by
  induction rs with
  | nil => intro m hm; exact hm
  | cons r rs ih =>
    intro m hm
    rw [List.foldl_cons]
    exact ih (dedupStep m r) (keys_nodup_dedupStep m r hm)

/-- C1: deduplication keys entries by `method + "-" + (domain or "unknown")`
and keeps at most one entry per key (`Nodup` of the output keys); the entry
kept for key `k` is `winnerFor k`: the first-inserted concrete entry when one
exists — so an existing entry is replaced only when it is `unknown` and the
incoming one is concrete, a concrete verdict is never replaced by `unknown`,
and of two conflicting concrete results the first-inserted one is kept; in
particular the spf/a.com `unknown` + `pass` pair merges to exactly the `pass`
entry. -/
theorem C1_deduplication :
    (∀ rs k, (deduplicateAuthResults rs).find? (fun r => dedupKey r = k) = winnerFor k rs) ∧
    (∀ rs, ((deduplicateAuthResults rs).map dedupKey).Nodup) ∧
    deduplicateAuthResults
        [{ method := "spf", result := "unknown", details := "", domain := some "a.com"
           selector := none, rawHeader := none },
         { method := "spf", result := "pass", details := "", domain := some "a.com"
           selector := none, rawHeader := none }] =
      [{ method := "spf", result := "pass", details := "", domain := some "a.com"
         selector := none, rawHeader := none }] := by
  refine ⟨?_, ?_, by decide⟩
  · intro rs k
    unfold deduplicateAuthResults
    rw [values_find? k _ (keysOk_foldl rs [] (by simp)), foldl_dedup_lookup]
    rfl
  · intro rs
    unfold deduplicateAuthResults
    have hkeys : (((List.foldl dedupStep [] rs).map (·.2)).map dedupKey) =
        ((List.foldl dedupStep [] rs).map (·.1)) := by
      rw [List.map_map]
      exact List.map_congr_left (fun p hp => (keysOk_foldl rs [] (by simp) p hp).symm)
    rw [hkeys]
    exact keys_nodup_foldl rs [] (by simp)

/-- C9: when the Return-Path value has neither an angle-bracketed address nor
a bare token with an interior `@`, `extractEmailFromHeader` returns the whole
raw value verbatim — in particular the null return path `<>` — and the
pipeline then stores that non-address string as `returnPath` rather than
leaving it undefined. -/
theorem C9_returnPath_verbatim :
    (∀ v, angleCapture v = none → atCapture v = none → extractEmailFromHeader v = v) ∧
    extractEmailFromHeader "<>" = "<>" ∧
    (∀ (jsDate : String → Option Int) (msg : PostalMessage) (content : String)
      (t0 t1 : Int),
      findHeader msg.headers "return-path" = some "<>" →
      (parseEmlFile jsDate msg content t0 t1).email.returnPath = some "<>") := by
  refine ⟨?_, by decide, ?_⟩
  · intro v h1 h2
    unfold extractEmailFromHeader
    rw [h1, h2]
  · intro jsDate msg content t0 t1 hfind
    show (match findHeader msg.headers "return-path" with
      | some v => if v = "" then none else some (extractEmailFromHeader v)
      | none => none) = some "<>"
    rw [hfind]
    show (if ("<>" : String) = "" then none else some (extractEmailFromHeader "<>")) =
      some "<>"
    rw [if_neg (by decide), show extractEmailFromHeader "<>" = "<>" from by decide]

/-- A decoder output whose only header is a null Return-Path, for the C9
witness. -/
def nullReturnPathMessage : PostalMessage :=
  { headers := [{ key := "Return-Path", value := "<>" }]
    from_ := .absent, to_ := .absent, cc := .absent, bcc := .absent
    replyTo := .absent, sender := none, messageId := none, subject := none
    date := none, html := none, text := none, inReplyTo := none
    references := none, attachments := [] }

/-- C9 witness: the null return path survives verbatim through the pipeline. -/
theorem C9_witness :
    angleCapture "<>" = none ∧ atCapture "<>" = none ∧
    extractEmailFromHeader "<>" = "<>" ∧
    findHeader nullReturnPathMessage.headers "return-path" = some "<>" ∧
    (parseEmlFile (fun _ => none) nullReturnPathMessage "" 0 0).email.returnPath =
      some "<>" :=
  ⟨by decide, by decide,
    C9_returnPath_verbatim.1 "<>" (by decide) (by decide),
    by decide,
    C9_returnPath_verbatim.2.2 (fun _ => none) nullReturnPathMessage "" 0 0 (by decide)⟩
